import Mathlib

/-!
Shallow embedding of the TradeAudit Pro v2 core (FIFO trade reconstruction,
trade record builder, discipline scorer, portfolio aggregates, broker-file
router), translated from:
  modules/parsers/kotak_parser.py
  modules/parsers/zerodha_parser.py
  modules/parsers/icici_parser.py
  modules/parsers/broker_parser.py
  modules/analysis/discipline_scorer.py

Conventions of the embedding:
* Monetary and quantity values are rationals (the Python code uses floats;
  all concrete inputs used below are chosen away from representation and
  rounding ties, so float and exact arithmetic agree on them).
* Timestamps are `Option ℤ` (epoch seconds); `none` models pandas `NaT`
  (a timestamp that failed to parse with `errors='coerce'`).
* `round(x, 2)` is modelled by `round2`; Python uses banker's rounding at
  exact half-cent ties, Mathlib's `round` rounds half up — every concrete
  value below is tie-free, so the two agree on them.
* Exceptions are modelled with `Except String`; a `try/except` block becomes
  a `match` on the `Except` value of the block's body.
-/

/-- One standardized execution row, as produced by `parse_kotak`
(columns `stock_symbol`, `action`, `qty`, `trade_price`, `trade_datetime`,
`order_datetime`, charge columns and their sum `total_charges`, `exchange`).
`action` is kept as a raw string because the code compares it literally to
`'Buy'` / `'Sell'` and silently skips any other value. -/
structure ExecRow where
  symbol : String
  action : String
  qty : ℚ
  price : ℚ
  trade_time : Option ℤ
  order_time : Option ℤ
  brokerage : ℚ
  gst : ℚ
  stt_ctt : ℚ
  misc_charges : ℚ
  total_charges : ℚ
  exchange : String
  deriving DecidableEq, Repr

/-- The `'type'` tag of a queue entry in `reconstruct_trades_with_validation`
(the dict field `'type': 'long' | 'short'`). -/
inductive PosKind where
  | long
  | short
  deriving DecidableEq, Repr

/-- An open position queue entry, mirroring the dict pushed onto
`position_queue` in `reconstruct_trades_with_validation` (lines 135-147 and
163-175 of kotak_parser.py). -/
structure PosEntry where
  kind : PosKind
  qty : ℚ
  price : ℚ
  time : Option ℤ
  order_time : Option ℤ
  charges : ℚ
  brokerage : ℚ
  stt : ℚ
  gst : ℚ
  misc : ℚ
  exchange : String
  deriving DecidableEq, Repr

/-- Build the queue entry from a row (the dict literal in the push branch). -/
def mkEntry (k : PosKind) (r : ExecRow) : PosEntry :=
  { kind := k
    qty := r.qty
    price := r.price
    time := r.trade_time
    order_time := r.order_time
    charges := r.total_charges
    brokerage := r.brokerage
    stt := r.stt_ctt
    gst := r.gst
    misc := r.misc_charges
    exchange := r.exchange }

/-- Python `round(x, 2)`: round to two decimal places. Mathlib's `round`
rounds half away from the lower value (half up); Python rounds half to even,
but the two differ only at exact half-cent ties, which no value in this file
hits. -/
def round2 (x : ℚ) : ℚ := ((round (100 * x) : ℤ) : ℚ) / 100

/-- A reconstructed round-trip trade, mirroring the dict returned by
`create_trade_record` (presentation-only fields `broker`, `entry_date` and
`trade_category` are omitted; they are constants or projections of
`entry_time` that no downstream computation reads). -/
structure Trade where
  symbol : String
  direction : String
  entry_time : Option ℤ
  exit_time : Option ℤ
  quantity : ℚ
  entry_price : ℚ
  exit_price : ℚ
  gross_pnl : ℚ
  brokerage : ℚ
  stt : ℚ
  gst : ℚ
  misc_charges : ℚ
  total_charges : ℚ
  net_pnl : ℚ
  holding_period_minutes : ℤ
  trade_type : String
  exchange : String
  deriving DecidableEq, Repr

/-- `create_trade_record(entry, exit_row, symbol, direction, ...)`
(kotak_parser.py lines 183-229).  `int((exit - entry).total_seconds() / 60)`
truncates toward zero, i.e. `Int.tdiv` of the second difference by 60. -/
def create_trade_record (entry : PosEntry) (exit_row : ExecRow)
    (symbol : String) (direction : String) : Trade :=
  let entry_time := entry.time
  let exit_time := exit_row.trade_time
  let holding_minutes : ℤ :=
    match entry_time, exit_time with
    | some t1, some t2 => Int.tdiv (t2 - t1) 60
    | _, _ => 0
  let gross_pnl : ℚ :=
    if direction = "LONG" then (exit_row.price - entry.price) * entry.qty
    else (entry.price - exit_row.price) * entry.qty
  let total_charges := entry.charges + exit_row.total_charges
  let net_pnl := gross_pnl - total_charges
  let trade_type := if holding_minutes < 1440 then "Intraday" else "Delivery"
  { symbol := symbol
    direction := direction
    entry_time := entry_time
    exit_time := exit_time
    quantity := entry.qty
    entry_price := round2 entry.price
    exit_price := round2 exit_row.price
    gross_pnl := round2 gross_pnl
    brokerage := round2 (entry.brokerage + exit_row.brokerage)
    stt := round2 (entry.stt + exit_row.stt_ctt)
    gst := round2 (entry.gst + exit_row.gst)
    misc_charges := round2 (entry.misc + exit_row.misc_charges)
    total_charges := round2 total_charges
    net_pnl := round2 net_pnl
    holding_period_minutes := holding_minutes
    trade_type := trade_type
    exchange := entry.exchange }

/-- One iteration of the FIFO loop body of
`reconstruct_trades_with_validation` (lines 119-175): given the current row
and queue, either emit a trade (closing the queue front) or push a new open
leg; rows whose action is neither `'Buy'` nor `'Sell'` fall through both
branches and leave the state unchanged. -/
def fifoStep (sym : String) (r : ExecRow) (q : List PosEntry) :
    Option Trade × List PosEntry :=
  if r.action = "Buy" then
    match q with
    | e :: qrest =>
      if e.kind = PosKind.short then
        (some (create_trade_record e r sym "SHORT"), qrest)
      else
        (none, q ++ [mkEntry PosKind.long r])
    | [] => (none, [mkEntry PosKind.long r])
  else if r.action = "Sell" then
    match q with
    | e :: qrest =>
      if e.kind = PosKind.long then
        (some (create_trade_record e r sym "LONG"), qrest)
      else
        (none, q ++ [mkEntry PosKind.short r])
    | [] => (none, [mkEntry PosKind.short r])
  else (none, q)

/-- The whole FIFO loop over one symbol's (already sorted) rows, returning
the emitted trades in order together with the final queue.  The source
discards the final queue; it is kept here so the queue-emptiness invariant
can be stated. -/
def fifoLoopFull (sym : String) : List ExecRow → List PosEntry →
    List Trade × List PosEntry
  | [], q => ([], q)
  | r :: rest, q =>
    let s := fifoStep sym r q
    let res := fifoLoopFull sym rest s.2
    (match s.1 with
     | some t => t :: res.1
     | none => res.1, res.2)

/-- `group[group['action'] == 'Buy']['qty'].sum()`. -/
def buyQty (rows : List ExecRow) : ℚ :=
  ((rows.filter (fun r => r.action = "Buy")).map (fun r => r.qty)).sum

/-- `group[group['action'] == 'Sell']['qty'].sum()`. -/
def sellQty (rows : List ExecRow) : ℚ :=
  ((rows.filter (fun r => r.action = "Sell")).map (fun r => r.qty)).sum

/-- An attention-required record, mirroring the dict appended at lines
104-113 of kotak_parser.py (the formatted `message` string and the `trades`
raw-row dump are presentation-only and omitted). -/
structure AttnItem where
  symbol : String
  reason : String
  buy_qty : ℚ
  sell_qty : ℚ
  difference : ℚ
  status : String
  deriving DecidableEq, Repr

/-- Build the attention record for an imbalanced symbol. -/
def mkAttnItem (s : String) (b sl : ℚ) : AttnItem :=
  { symbol := s
    reason := "Quantity Mismatch"
    buy_qty := b
    sell_qty := sl
    difference := b - sl
    status := if b - sl > 0 then "LONG" else "SHORT" }

/-- Sort key of `df.sort_values('trade_datetime')`: timestamps ascending with
`NaT` placed last (pandas default `na_position='last'`), modelled as
`WithTop ℤ`. -/
def timeKey (r : ExecRow) : WithTop ℤ :=
  match r.trade_time with
  | some t => (t : WithTop ℤ)
  | none => ⊤

/-- Row comparison used by the chronological sort. -/
def rowTimeLe (a b : ExecRow) : Prop := timeKey a ≤ timeKey b

instance : DecidableRel rowTimeLe := fun a b => by
  unfold rowTimeLe; infer_instance

instance : IsTotal ExecRow rowTimeLe := ⟨fun a b => le_total (timeKey a) (timeKey b)⟩

instance : IsTrans ExecRow rowTimeLe := ⟨fun _ _ _ hab hbc => le_trans hab hbc⟩

/-- `df.sort_values('trade_datetime')`.  The source calls pandas with its
default `kind='quicksort'`, which fixes only that the result is a
timestamp-sorted permutation (ties may land in any order); the embedding
picks the stable insertion sort as its representative sorted permutation,
and every theorem whose truth could depend on the tie order is instead
stated over an arbitrary `rowTimeLe`-sorted list. -/
def sortRows (rows : List ExecRow) : List ExecRow :=
  List.insertionSort rowTimeLe rows

/-- One symbol's group of the chronologically sorted ledger, as handed to
the FIFO loop by `df.groupby('stock_symbol')` (group rows keep the sorted
order). -/
def symGroup (rows : List ExecRow) (s : String) : List ExecRow :=
  (sortRows rows).filter (fun r => r.symbol = s)

/-- `reconstruct_trades_with_validation` (kotak_parser.py lines 72-180):
sort chronologically, group by symbol, divert imbalanced symbols to the
attention list, and run the FIFO matcher on each balanced symbol's rows.
`groupby` iterates each symbol once with its rows in sorted order, modelled
by deduplicating the symbol column and filtering; no claim depends on the
iteration order of the symbols themselves. -/
def reconstruct_trades_with_validation (rows : List ExecRow) :
    List Trade × List AttnItem :=
  let syms := ((sortRows rows).map (fun r => r.symbol)).dedup
  let trades :=
    (syms.map (fun s =>
      let group := symGroup rows s
      if buyQty group = sellQty group then (fifoLoopFull s group []).1
      else [])).flatten
  let attn :=
    syms.filterMap (fun s =>
      let group := symGroup rows s
      if buyQty group = sellQty group then none
      else some (mkAttnItem s (buyQty group) (sellQty group)))
  (trades, attn)

/-- `charsStart n h` : the char list `n` is an initial segment of `h`
(helper for the Python substring test `needle in haystack`). -/
def charsStart : List Char → List Char → Bool
  | [], _ => true
  | _ :: _, [] => false
  | a :: as, b :: bs => a = b && charsStart as bs

/-- `charsHasSub n h` : the char list `n` occurs contiguously inside `h`. -/
def charsHasSub (needle : List Char) : List Char → Bool
  | [] => needle.isEmpty
  | c :: t => charsStart needle (c :: t) || charsHasSub needle t

/-- Python's `needle in hay` on strings. -/
def strHasSub (hay needle : String) : Bool :=
  charsHasSub needle.toList hay.toList

/-- The contents of one uploaded CSV as seen by a broker parser:
its header columns, and the outcome of converting its cells into typed
execution rows (`astype(float)`, date parsing, column access — pandas
operations that either raise or yield the standardized rows; they are
external library code and are abstracted as an `Except`-valued field). -/
structure CsvData where
  columns : List String
  convert : Except String (List ExecRow)

/-- An uploaded file: the outcome of the sample read
(`pd.read_csv(file, nrows=5)` in `parse_broker_file`) and of the full read
performed by the dispatched parser.  `Except.error` models the read raising. -/
structure UploadFile where
  sample : Except String (List String)
  full : Except String CsvData

/-- The value returned by the parser layer.  The Python functions return
plain tuples whose arity differs by code path: `parse_kotak` returns a
3-tuple `(trades, attention, error)`, while `parse_zerodha`, `parse_icici`
and `parse_broker_file`'s own non-Kotak paths return a 2-tuple
`(trades, message)`.  Both shapes are kept so the arity is observable. -/
inductive BrokerResult where
  | pair (trades : Option (List Trade)) (message : String)
  | triple (trades : Option (List Trade)) (attention : Option (List AttnItem))
      (error : Option String)

/-- The `try:` body of `parse_kotak` (kotak_parser.py lines 21-66); a failing
read or cell conversion propagates as `Except.error`, to be caught by the
function's `except` clause. -/
def kotakBody (f : UploadFile) : Except String BrokerResult :=
  match f.full with
  | Except.error e => Except.error e
  | Except.ok csv =>
    if ¬ (["Trade Date", "Transaction Type", "Quantity", "Market Rate"].all
          (fun c => csv.columns.contains c)) then
      Except.ok (BrokerResult.triple none none
        (some "Invalid Kotak format. Missing required columns."))
    else
      match csv.convert with
      | Except.error e => Except.error e
      | Except.ok rows =>
        Except.ok (BrokerResult.triple
          (some (reconstruct_trades_with_validation rows).1)
          (some (reconstruct_trades_with_validation rows).2) none)

/-- `parse_kotak` (kotak_parser.py lines 12-69): the body with its
`except Exception` clause. -/
def parse_kotak (f : UploadFile) : BrokerResult :=
  match kotakBody f with
  | Except.ok r => r
  | Except.error e =>
    BrokerResult.triple none none (some ("Error parsing Kotak file: " ++ e))

/-- The `try:` body of `parse_zerodha` (zerodha_parser.py lines 10-17). -/
def zerodhaBody (f : UploadFile) : Except String BrokerResult :=
  match f.full with
  | Except.error e => Except.error e
  | Except.ok csv =>
    if ¬ (["symbol", "order_execution_time", "trade_type", "quantity", "price"].all
          (fun c => csv.columns.contains c)) then
      Except.ok (BrokerResult.pair none "Invalid Zerodha format")
    else
      Except.ok (BrokerResult.pair none
        "Zerodha FIFO parser coming soon. Use Kotak format for now.")

/-- `parse_zerodha` (zerodha_parser.py lines 8-20). -/
def parse_zerodha (f : UploadFile) : BrokerResult :=
  match zerodhaBody f with
  | Except.ok r => r
  | Except.error e =>
    BrokerResult.pair none ("Error parsing Zerodha file: " ++ e)

/-- The `try:` body of `parse_icici` (icici_parser.py lines 10-17). -/
def iciciBody (f : UploadFile) : Except String BrokerResult :=
  match f.full with
  | Except.error e => Except.error e
  | Except.ok csv =>
    if ¬ (["Stock", "Order Ref.", "Settlement"].all
          (fun c => csv.columns.contains c)) then
      Except.ok (BrokerResult.pair none "Invalid ICICI format")
    else
      Except.ok (BrokerResult.pair none
        "ICICI FIFO parser coming soon. Use Kotak format for now.")

/-- `parse_icici` (icici_parser.py lines 8-20). -/
def parse_icici (f : UploadFile) : BrokerResult :=
  match iciciBody f with
  | Except.ok r => r
  | Except.error e =>
    BrokerResult.pair none ("Error parsing ICICI file: " ++ e)

/-- Python `str.lower()` over the header strings (character-wise; the
headers involved are ASCII). -/
def pyLower (s : String) : String := String.mk (s.toList.map Char.toLower)

/-- Python `str.strip()`: drop whitespace from both ends. -/
def pyStrip (s : String) : String :=
  String.mk (((s.toList.dropWhile Char.isWhitespace).reverse.dropWhile
    Char.isWhitespace).reverse)

/-- Kotak header detection over the lowered, trimmed sample columns
(broker_parser.py lines 29-31). -/
def isKotakHeader (lcols : List String) : Bool :=
  lcols.any (fun c => strHasSub c "trade date") &&
  lcols.any (fun c => strHasSub c "transaction type") &&
  lcols.any (fun c => strHasSub c "security name")

/-- Zerodha header detection (broker_parser.py lines 35-37). -/
def isZerodhaHeader (lcols : List String) : Bool :=
  lcols.any (fun c => strHasSub c "symbol") &&
  lcols.any (fun c => strHasSub c "order_execution_time") &&
  lcols.any (fun c => strHasSub c "trade_type")

/-- ICICI header detection (broker_parser.py lines 41-43). -/
def isIciciHeader (lcols : List String) : Bool :=
  lcols.any (fun c => strHasSub c "stock") &&
  lcols.any (fun c => strHasSub c "order ref") &&
  lcols.any (fun c => strHasSub c "settlement")

/-- The `try:` body of `parse_broker_file` (broker_parser.py lines 21-47):
read the header sample, detect the broker from the lowered column names, and
dispatch.  The dispatched parsers catch their own exceptions, so only the
sample read can raise here. -/
def brokerBody (f : UploadFile) : Except String BrokerResult :=
  match f.sample with
  | Except.error e => Except.error e
  | Except.ok cols =>
    let lcols := cols.map (fun c => pyStrip (pyLower c))
    if isKotakHeader lcols then
      Except.ok (parse_kotak f)
    else if isZerodhaHeader lcols then
      Except.ok (parse_zerodha f)
    else if isIciciHeader lcols then
      Except.ok (parse_icici f)
    else
      Except.ok (BrokerResult.pair none
        "Unrecognized broker format. Supported: Kotak, Zerodha, ICICI Direct")

/-- `parse_broker_file` (broker_parser.py lines 9-50): the body with its
`except Exception` clause. -/
def parse_broker_file (f : UploadFile) : BrokerResult :=
  match brokerBody f with
  | Except.ok r => r
  | Except.error e =>
    BrokerResult.pair none ("Error detecting broker format: " ++ e)

/-- The fields of a trades-table row that `calculate_single_trade_score`
reads.  `net_pnl`, `entry_price`, `quantity` and `total_charges` are accessed
with `trade[...]` (required); `holding_period_minutes` and `trade_type` are
accessed with `trade.get(key, default)` and so may be absent, modelled as
`Option`. -/
structure ScoreRow where
  net_pnl : ℚ
  entry_price : ℚ
  quantity : ℚ
  total_charges : ℚ
  holding_period_minutes : Option ℤ
  trade_type : Option String

/-- Component 1, P&L performance, max 30 (discipline_scorer.py lines 36-56). -/
def pnlScore (t : ScoreRow) : ℤ :=
  let pnl := t.net_pnl
  let position_value := t.entry_price * t.quantity
  let return_pct : ℚ := if position_value > 0 then pnl / position_value * 100 else 0
  if pnl > 0 then
    if return_pct > 2 then 30
    else if return_pct > 1 then 25
    else if return_pct > 0.5 then 20
    else 15
  else
    if |return_pct| < 0.5 then 15
    else if |return_pct| < 1 then 10
    else if |return_pct| < 2 then 5
    else 0

/-- Component 2, holding period, max 20 (discipline_scorer.py lines 58-72);
`trade.get('holding_period_minutes', 0)`. -/
def holdingScore (t : ScoreRow) : ℤ :=
  let h := t.holding_period_minutes.getD 0
  if h < 0 then 10
  else if h < 5 then 5
  else if 15 ≤ h ∧ h ≤ 240 then 20
  else if 240 < h ∧ h ≤ 480 then 15
  else if h > 1440 then 18
  else 10

/-- Component 3, position sizing, max 20 (discipline_scorer.py lines 74-84). -/
def sizingScore (t : ScoreRow) : ℤ :=
  let position_value := t.entry_price * t.quantity
  if 10000 ≤ position_value ∧ position_value ≤ 500000 then 20
  else if 5000 ≤ position_value ∧ position_value < 10000 then 15
  else if 500000 < position_value ∧ position_value ≤ 1000000 then 10
  else if position_value > 1000000 then 5
  else 10

/-- Component 4, charge efficiency, max 15 (discipline_scorer.py lines
86-96); `charges_pct` is 100 when `net_pnl` is zero. -/
def chargesScore (t : ScoreRow) : ℤ :=
  let pnl := t.net_pnl
  let charges_pct : ℚ := if pnl ≠ 0 then t.total_charges / |pnl| * 100 else 100
  if charges_pct < 10 then 15
  else if charges_pct < 25 then 12
  else if charges_pct < 50 then 8
  else 5

/-- Component 5, execution quality, max 15 (discipline_scorer.py lines
98-106); `trade.get('trade_type', 'Unknown')`. -/
def executionScore (t : ScoreRow) : ℤ :=
  let tt := t.trade_type.getD "Unknown"
  if tt = "Intraday" then 15
  else if tt = "Delivery" then 12
  else 10

/-- `calculate_single_trade_score` (discipline_scorer.py lines 31-108):
the five components accumulated then `min(score, 100)`. -/
def calculate_single_trade_score (t : ScoreRow) : ℤ :=
  min (pnlScore t + holdingScore t + sizingScore t + chargesScore t +
       executionScore t) 100

/-- The profit-factor computation of `calculate_portfolio_stats`
(discipline_scorer.py lines 133-134 and 151-154), over the trade set's
`net_pnl` column: wins are rows with `net_pnl > 0`, losses rows with
`net_pnl <= 0`; the loss denominator defaults to 1 when there are no losing
rows, and the factor defaults to 0 when the denominator is not positive. -/
def portfolio_profit_factor (pnls : List ℚ) : ℚ :=
  let wins := pnls.filter (fun p => p > 0)
  let losses := pnls.filter (fun p => p ≤ 0)
  let total_wins := if wins.length > 0 then wins.sum else 0
  let total_losses := if losses.length > 0 then |losses.sum| else 1
  if total_losses > 0 then total_wins / total_losses else 0

lemma pnlScore_bounds (t : ScoreRow) : 0 ≤ pnlScore t ∧ pnlScore t ≤ 30 := by
  simp only [pnlScore]
  split_ifs <;> omega

lemma holdingScore_bounds (t : ScoreRow) : 0 ≤ holdingScore t ∧ holdingScore t ≤ 20 := by
  simp only [holdingScore]
  split_ifs <;> omega

lemma sizingScore_bounds (t : ScoreRow) : 0 ≤ sizingScore t ∧ sizingScore t ≤ 20 := by
  simp only [sizingScore]
  split_ifs <;> omega

lemma chargesScore_bounds (t : ScoreRow) : 0 ≤ chargesScore t ∧ chargesScore t ≤ 15 := by
  simp only [chargesScore]
  split_ifs <;> omega

lemma executionScore_bounds (t : ScoreRow) :
    0 ≤ executionScore t ∧ executionScore t ≤ 15 := by
  simp only [executionScore]
  split_ifs <;> omega

/-- C6: for every input trade row, whatever its field values, the discipline
score is an integer in [0,100]: it is the sum of the five components, each
individually capped at its listed maximum (30, 20, 20, 15, 15), clamped to
100 by `min`. -/
theorem discipline_score_in_range (t : ScoreRow) :
    0 ≤ calculate_single_trade_score t ∧
    calculate_single_trade_score t ≤ 100 ∧
    calculate_single_trade_score t =
      min (pnlScore t + holdingScore t + sizingScore t + chargesScore t +
           executionScore t) 100 ∧
    pnlScore t ≤ 30 ∧ holdingScore t ≤ 20 ∧ sizingScore t ≤ 20 ∧
    chargesScore t ≤ 15 ∧ executionScore t ≤ 15 := by
  have h1 := pnlScore_bounds t
  have h2 := holdingScore_bounds t
  have h3 := sizingScore_bounds t
  have h4 := chargesScore_bounds t
  have h5 := executionScore_bounds t
  refine ⟨?_, ?_, rfl, h1.2, h2.2, h3.2, h4.2, h5.2⟩ <;>
    (simp only [calculate_single_trade_score]; omega)

/-- C4 counterexample: a trade set with a single winning trade (net_pnl 10)
has zero losing trades, yet the profit factor computed by the code is 10,
not 0: the loss denominator defaults to 1, so the factor equals the win sum. -/
theorem profit_factor_zero_loss_counterexample :
    ([(10 : ℚ)].filter (fun p => p ≤ 0) = []) ∧
    portfolio_profit_factor [(10 : ℚ)] = 10 ∧ (10 : ℚ) ≠ 0 := by
  refine ⟨by decide, ?_, by norm_num⟩
  simp only [portfolio_profit_factor]
  norm_num

/-- C4 amended: when a non-empty trade set contains zero losing trades
(`net_pnl ≤ 0`), the profit factor equals the sum of the winning trades'
net_pnl, the denominator having defaulted to 1; it is a plain rational, never
infinite or undefined (it is 0 only when losing trades exist and their
net_pnl sums to zero). -/
theorem profit_factor_no_losses (pnls : List ℚ)
    (h : pnls.filter (fun p => p ≤ 0) = []) :
    portfolio_profit_factor pnls = (pnls.filter (fun p => p > 0)).sum := by
  simp only [portfolio_profit_factor, h]
  by_cases hw : (pnls.filter (fun p => p > 0)).length > 0
  · simp [hw]
  · have hnil : pnls.filter (fun p => p > 0) = [] := by
      rcases List.eq_nil_or_concat (pnls.filter (fun p => p > 0)) with hnil | ⟨l, a, hl⟩
      · exact hnil
      · exfalso; apply hw; rw [hl]; simp
    simp [hnil]

/-- C4 witness: the amended statement at the concrete one-trade set [10]. -/
theorem profit_factor_no_losses_witness :
    ([(10 : ℚ)].filter (fun p => p ≤ 0) = []) ∧
    portfolio_profit_factor [(10 : ℚ)] = ([(10 : ℚ)].filter (fun p => p > 0)).sum :=
  ⟨by decide, profit_factor_no_losses [(10 : ℚ)] (by decide)⟩

lemma round2_fix_iff {a : ℚ} (ha : round2 a = a) :
    ((round (100 * a) : ℤ) : ℚ) = 100 * a := by
  have h100 : (100 : ℚ) ≠ 0 := by norm_num
  rw [round2, div_eq_iff h100] at ha
  linarith [ha]

lemma round2_sub_of_fix {a b : ℚ} (ha : round2 a = a) (hb : round2 b = b) :
    round2 (a - b) = a - b := by
  have ha2 := round2_fix_iff ha
  have hb2 := round2_fix_iff hb
  have hsum : (100 : ℚ) * (a - b) =
      ((round (100 * a) - round (100 * b) : ℤ) : ℚ) := by
    push_cast
    rw [ha2, hb2]; ring
  rw [round2, hsum, round_intCast]
  push_cast
  rw [ha2, hb2]; ring

/-- Entry leg of the C5 counterexample: long 1 share at 10, charges 0.002. -/
def c5Entry : PosEntry :=
  { kind := PosKind.long, qty := 1, price := 10, time := some 0,
    order_time := none, charges := 1 / 500, brokerage := 1 / 500,
    stt := 0, gst := 0, misc := 0, exchange := "NSE" }

/-- Exit row of the C5 counterexample: sell 1 share at 10.006, charges 0.002. -/
def c5Exit : ExecRow :=
  { symbol := "AAA", action := "Sell", qty := 1, price := 10 + 3 / 500,
    trade_time := some 60, order_time := none, brokerage := 1 / 500,
    gst := 0, stt_ctt := 0, misc_charges := 0, total_charges := 1 / 500,
    exchange := "NSE" }

/-- C5 counterexample: the STORED fields do not satisfy
`net_pnl = gross_pnl − total_charges` exactly.  Unrounded: gross 0.006,
charges 0.004, net 0.002; stored (each independently rounded to 2 decimals):
gross 0.01, charges 0.00, net 0.00, and 0.00 ≠ 0.01 − 0.00. -/
theorem trade_record_stored_identity_fails :
    (create_trade_record c5Entry c5Exit "AAA" "LONG").net_pnl ≠
      (create_trade_record c5Entry c5Exit "AAA" "LONG").gross_pnl -
      (create_trade_record c5Entry c5Exit "AAA" "LONG").total_charges := by
  simp only [create_trade_record, c5Entry, c5Exit, round2]
  norm_num [round_eq]

/-- C5 amended: `net_pnl = gross_pnl − total_charges` holds exactly between
the UNROUNDED quantities — the stored `net_pnl` is `round2` of that exact
difference — and it holds between the stored fields whenever the unrounded
gross P&L and total charges are already exact to two decimals (as whole-cent
amounts are); in general each stored field is rounded independently, so the
stored identity can be off by up to a cent. -/
theorem trade_record_net_pnl (entry : PosEntry) (exit_row : ExecRow)
    (symbol direction : String)
    (hg : round2 (if direction = "LONG"
            then (exit_row.price - entry.price) * entry.qty
            else (entry.price - exit_row.price) * entry.qty) =
          (if direction = "LONG"
            then (exit_row.price - entry.price) * entry.qty
            else (entry.price - exit_row.price) * entry.qty))
    (hc : round2 (entry.charges + exit_row.total_charges) =
          entry.charges + exit_row.total_charges) :
    (create_trade_record entry exit_row symbol direction).net_pnl =
      round2 ((if direction = "LONG"
                then (exit_row.price - entry.price) * entry.qty
                else (entry.price - exit_row.price) * entry.qty) -
              (entry.charges + exit_row.total_charges)) ∧
    (create_trade_record entry exit_row symbol direction).net_pnl =
      (create_trade_record entry exit_row symbol direction).gross_pnl -
      (create_trade_record entry exit_row symbol direction).total_charges := by
  constructor
  · rfl
  · show round2 _ = round2 _ - round2 _
    rw [round2_sub_of_fix hg hc, hg, hc]

/-- Entry leg of the C5 witness: the spec's end-to-end Long scenario
(buy 100 at 10, entry charges 5). -/
def c5wEntry : PosEntry :=
  { kind := PosKind.long, qty := 100, price := 10, time := some 0,
    order_time := none, charges := 5, brokerage := 5,
    stt := 0, gst := 0, misc := 0, exchange := "NSE" }

/-- Exit row of the C5 witness: sell 100 at 12, exit charges 5. -/
def c5wExit : ExecRow :=
  { symbol := "AAA", action := "Sell", qty := 100, price := 12,
    trade_time := some 60, order_time := none, brokerage := 5,
    gst := 0, stt_ctt := 0, misc_charges := 0, total_charges := 5,
    exchange := "NSE" }

/-- C5 witness: the amended statement at the spec's whole-rupee scenario
(gross 200, charges 10, net 190), where both rounding hypotheses hold. -/
theorem trade_record_net_pnl_witness :
    (create_trade_record c5wEntry c5wExit "AAA" "LONG").net_pnl =
      (create_trade_record c5wEntry c5wExit "AAA" "LONG").gross_pnl -
      (create_trade_record c5wEntry c5wExit "AAA" "LONG").total_charges :=
  (trade_record_net_pnl c5wEntry c5wExit "AAA" "LONG"
    (by simp only [c5wEntry, c5wExit, round2]; norm_num [round_eq])
    (by simp only [c5wEntry, c5wExit, round2]; norm_num [round_eq])).2

/-- First Buy of the C2 scenario (t1 = 60). -/
def c2BuyA : ExecRow :=
  { symbol := "SYM", action := "Buy", qty := 10, price := 100,
    trade_time := some 60, order_time := none, brokerage := 0, gst := 0,
    stt_ctt := 0, misc_charges := 0, total_charges := 0, exchange := "NSE" }

/-- Second Buy of the C2 scenario (t2 = 120). -/
def c2BuyB : ExecRow :=
  { symbol := "SYM", action := "Buy", qty := 10, price := 101,
    trade_time := some 120, order_time := none, brokerage := 0, gst := 0,
    stt_ctt := 0, misc_charges := 0, total_charges := 0, exchange := "NSE" }

/-- First Sell of the C2 scenario (t3 = 180). -/
def c2Sell1 : ExecRow :=
  { symbol := "SYM", action := "Sell", qty := 10, price := 102,
    trade_time := some 180, order_time := none, brokerage := 0, gst := 0,
    stt_ctt := 0, misc_charges := 0, total_charges := 0, exchange := "NSE" }

/-- Second Sell of the C2 scenario (t4 = 240). -/
def c2Sell2 : ExecRow :=
  { symbol := "SYM", action := "Sell", qty := 10, price := 103,
    trade_time := some 240, order_time := none, brokerage := 0, gst := 0,
    stt_ctt := 0, misc_charges := 0, total_charges := 0, exchange := "NSE" }

/-- C2: matching is strict oldest-first FIFO.  (i) A Sell row arriving while
the queue front is a Long leg pops exactly that front leg and emits the Long
trade built from it.  (ii) Otherwise (empty queue or Short front) the Sell is
appended as a new Short open leg.  (iii) In the concrete scenario
Buy(t1=60), Buy(t2=120), Sell(t3=180), Sell(t4=240), the Sell at t3 closes
the Buy at t1 and the Sell at t4 the Buy at t2. -/
theorem fifo_oldest_first :
    (∀ (r : ExecRow) (rest : List ExecRow) (e : PosEntry) (q : List PosEntry)
        (sym : String), r.action = "Sell" → e.kind = PosKind.long →
        fifoLoopFull sym (r :: rest) (e :: q) =
          (create_trade_record e r sym "LONG" :: (fifoLoopFull sym rest q).1,
           (fifoLoopFull sym rest q).2)) ∧
    (∀ (r : ExecRow) (rest : List ExecRow) (q : List PosEntry) (sym : String),
        r.action = "Sell" →
        (q = [] ∨ ∃ e qrest, q = e :: qrest ∧ e.kind = PosKind.short) →
        fifoLoopFull sym (r :: rest) q =
          fifoLoopFull sym rest (q ++ [mkEntry PosKind.short r])) ∧
    ((fifoLoopFull "SYM" [c2BuyA, c2BuyB, c2Sell1, c2Sell2] []).1.map
        (fun t => (t.entry_time, t.exit_time))) =
      [(some 60, some 180), (some 120, some 240)] := by
  refine ⟨?_, ?_, ?_⟩
  · intro r rest e q sym hact hkind
    simp [fifoLoopFull, fifoStep, hact, hkind]
  · intro r rest q sym hact hq
    rcases hq with rfl | ⟨e, qrest, rfl, hk⟩
    · simp [fifoLoopFull, fifoStep, hact]
    · simp [fifoLoopFull, fifoStep, hact, hk]
  · rfl

/-- C2 witness: the pop rule applied concretely — with the two Long legs of
t1 = 60 and t2 = 120 queued in that order, the Sell at t3 = 180 closes the
t1 = 60 leg (the queue front), not the t2 = 120 one. -/
theorem fifo_oldest_first_witness :
    c2Sell1.action = "Sell" ∧ (mkEntry PosKind.long c2BuyA).kind = PosKind.long ∧
    fifoLoopFull "SYM" (c2Sell1 :: [c2Sell2])
        (mkEntry PosKind.long c2BuyA :: [mkEntry PosKind.long c2BuyB]) =
      (create_trade_record (mkEntry PosKind.long c2BuyA) c2Sell1 "SYM" "LONG" ::
        (fifoLoopFull "SYM" [c2Sell2] [mkEntry PosKind.long c2BuyB]).1,
       (fifoLoopFull "SYM" [c2Sell2] [mkEntry PosKind.long c2BuyB]).2) :=
  ⟨rfl, rfl,
    fifo_oldest_first.1 c2Sell1 [c2Sell2] (mkEntry PosKind.long c2BuyA)
      [mkEntry PosKind.long c2BuyB] "SYM" rfl rfl⟩

/-- Contribution of one open leg to the queue's signed long/short balance. -/
def kindZ : PosKind → ℤ
  | PosKind.long => 1
  | PosKind.short => -1

/-- Signed balance of a queue: (number of long legs) − (number of short legs). -/
def qZ (q : List PosEntry) : ℤ := (q.map (fun e => kindZ e.kind)).sum

/-- Number of rows whose action is `'Buy'`. -/
def buyCount (rows : List ExecRow) : ℕ :=
  (rows.filter (fun r => r.action = "Buy")).length

/-- Number of rows whose action is `'Sell'`. -/
def sellCount (rows : List ExecRow) : ℕ :=
  (rows.filter (fun r => r.action = "Sell")).length

/-- Number of rows whose action is `'Buy'` or `'Sell'` (the rows the FIFO
loop does not silently skip). -/
def bsCount (rows : List ExecRow) : ℕ :=
  (rows.filter (fun r => r.action = "Buy" || r.action = "Sell")).length

/-- All legs in the queue have one kind (the invariant of §4.1 step 4). -/
def sameKind (q : List PosEntry) : Prop :=
  ∀ e1 ∈ q, ∀ e2 ∈ q, e1.kind = e2.kind

lemma sameKind_nil : sameKind [] := by
  intro e1 h1
  cases h1

lemma sameKind_tail {e : PosEntry} {q : List PosEntry} (h : sameKind (e :: q)) :
    sameKind q := fun e1 h1 e2 h2 =>
  h e1 (List.mem_cons_of_mem _ h1) e2 (List.mem_cons_of_mem _ h2)

lemma sameKind_snoc {q : List PosEntry} {e x : PosEntry}
    (h : sameKind (e :: q)) (hx : x.kind = e.kind) :
    sameKind ((e :: q) ++ [x]) := by
  have key : ∀ y ∈ (e :: q) ++ [x], y.kind = e.kind := by
    intro y hy
    rcases List.mem_append.1 hy with hy | hy
    · exact h y hy e (List.mem_cons_self _ _)
    · simp only [List.mem_singleton] at hy
      rw [hy, hx]
  intro e1 h1 e2 h2
  rw [key e1 h1, key e2 h2]

lemma fifoStep_qZ (sym : String) (r : ExecRow) (q : List PosEntry) :
    qZ (fifoStep sym r q).2 =
      qZ q + (if r.action = "Buy" then 1
              else if r.action = "Sell" then -1 else 0) := by
  by_cases hb : r.action = "Buy"
  · cases q with
    | nil => simp [fifoStep, hb, qZ, mkEntry, kindZ]
    | cons e qrest =>
      by_cases hk : e.kind = PosKind.short
      · simp [fifoStep, hb, hk, qZ, kindZ]
      · simp [fifoStep, hb, hk, qZ, mkEntry, kindZ]
        try ring
  · by_cases hs : r.action = "Sell"
    · cases q with
      | nil => simp [fifoStep, hb, hs, qZ, mkEntry, kindZ]
      | cons e qrest =>
        by_cases hk : e.kind = PosKind.long
        · simp [fifoStep, hb, hs, hk, qZ, kindZ]
          try ring
        · simp [fifoStep, hb, hs, hk, qZ, mkEntry, kindZ]
          try ring
    · simp [fifoStep, hb, hs]

lemma fifoStep_emit_len (sym : String) (r : ExecRow) (q : List PosEntry) :
    2 * ((fifoStep sym r q).1.toList.length : ℤ) +
      ((fifoStep sym r q).2.length : ℤ) =
      (q.length : ℤ) +
        (if r.action = "Buy" || r.action = "Sell" then 1 else 0) := by
  by_cases hb : r.action = "Buy"
  · cases q with
    | nil => simp [fifoStep, hb]
    | cons e qrest =>
      by_cases hk : e.kind = PosKind.short
      · simp [fifoStep, hb, hk]
        try ring
      · simp [fifoStep, hb, hk]
        try ring
  · by_cases hs : r.action = "Sell"
    · cases q with
      | nil => simp [fifoStep, hb, hs]
      | cons e qrest =>
        by_cases hk : e.kind = PosKind.long
        · simp [fifoStep, hb, hs, hk]
          try ring
        · simp [fifoStep, hb, hs, hk]
          try ring
    · simp [fifoStep, hb, hs]

lemma fifoStep_sameKind (sym : String) (r : ExecRow) (q : List PosEntry)
    (h : sameKind q) : sameKind (fifoStep sym r q).2 := by
  by_cases hb : r.action = "Buy"
  · cases q with
    | nil =>
      have h2 : (fifoStep sym r []).2 = [mkEntry PosKind.long r] := by
        simp [fifoStep, hb]
      rw [h2]
      intro e1 h1 e2 hmem
      simp only [List.mem_singleton] at h1 hmem
      rw [h1, hmem]
    | cons e qrest =>
      by_cases hk : e.kind = PosKind.short
      · have h2 : (fifoStep sym r (e :: qrest)).2 = qrest := by
          simp [fifoStep, hb, hk]
        rw [h2]
        exact sameKind_tail h
      · have h2 : (fifoStep sym r (e :: qrest)).2 =
            (e :: qrest) ++ [mkEntry PosKind.long r] := by
          simp [fifoStep, hb, hk]
        rw [h2]
        refine sameKind_snoc h ?_
        cases hek : e.kind with
        | long => rfl
        | short => exact absurd hek hk
  · by_cases hs : r.action = "Sell"
    · cases q with
      | nil =>
        have h2 : (fifoStep sym r []).2 = [mkEntry PosKind.short r] := by
          simp [fifoStep, hb, hs]
        rw [h2]
        intro e1 h1 e2 hmem
        simp only [List.mem_singleton] at h1 hmem
        rw [h1, hmem]
      | cons e qrest =>
        by_cases hk : e.kind = PosKind.long
        · have h2 : (fifoStep sym r (e :: qrest)).2 = qrest := by
            simp [fifoStep, hb, hs, hk]
          rw [h2]
          exact sameKind_tail h
        · have h2 : (fifoStep sym r (e :: qrest)).2 =
              (e :: qrest) ++ [mkEntry PosKind.short r] := by
            simp [fifoStep, hb, hs, hk]
          rw [h2]
          refine sameKind_snoc h ?_
          cases hek : e.kind with
          | long => exact absurd hek hk
          | short => rfl
    · have h2 : (fifoStep sym r q).2 = q := by simp [fifoStep, hb, hs]
      rw [h2]
      exact h

lemma fifoLoopFull_snd_unfold (sym : String) (r : ExecRow)
    (rest : List ExecRow) (q : List PosEntry) :
    (fifoLoopFull sym (r :: rest) q).2 =
      (fifoLoopFull sym rest (fifoStep sym r q).2).2 := rfl

lemma fifoLoopFull_qZ (sym : String) (rows : List ExecRow) :
    ∀ q, qZ (fifoLoopFull sym rows q).2 =
      qZ q + (buyCount rows : ℤ) - (sellCount rows : ℤ) := by
  induction rows with
  | nil => intro q; simp [fifoLoopFull, buyCount, sellCount]
  | cons r rest ih =>
    intro q
    rw [fifoLoopFull_snd_unfold, ih, fifoStep_qZ]
    by_cases hb : r.action = "Buy"
    · simp [buyCount, sellCount, List.filter_cons, hb]
      ring
    · by_cases hs : r.action = "Sell"
      · simp [buyCount, sellCount, List.filter_cons, hb, hs]
        ring
      · simp [buyCount, sellCount, List.filter_cons, hb, hs]

lemma fifoLoopFull_sameKind (sym : String) (rows : List ExecRow) :
    ∀ q, sameKind q → sameKind (fifoLoopFull sym rows q).2 := by
  induction rows with
  | nil => intro q h; exact h
  | cons r rest ih =>
    intro q h
    rw [fifoLoopFull_snd_unfold]
    exact ih _ (fifoStep_sameKind sym r q h)

lemma fifoLoopFull_len (sym : String) (rows : List ExecRow) :
    ∀ q, 2 * ((fifoLoopFull sym rows q).1.length : ℤ) +
        ((fifoLoopFull sym rows q).2.length : ℤ) =
      (bsCount rows : ℤ) + (q.length : ℤ) := by
  induction rows with
  | nil => intro q; simp [fifoLoopFull, bsCount]
  | cons r rest ih =>
    intro q
    have hstep := fifoStep_emit_len sym r q
    have hfst : ((fifoLoopFull sym (r :: rest) q).1.length : ℤ) =
        ((fifoStep sym r q).1.toList.length : ℤ) +
        ((fifoLoopFull sym rest (fifoStep sym r q).2).1.length : ℤ) := by
      cases hemit : (fifoStep sym r q).1 with
      | none => simp [fifoLoopFull, hemit]
      | some t =>
        simp [fifoLoopFull, hemit]
        omega
    rw [fifoLoopFull_snd_unfold, hfst]
    have ihq := ih (fifoStep sym r q).2
    have hbs : (bsCount (r :: rest) : ℤ) =
        (bsCount rest : ℤ) +
          (if r.action = "Buy" || r.action = "Sell" then 1 else 0) := by
      by_cases hb : r.action = "Buy"
      · simp [bsCount, List.filter_cons, hb]
      · by_cases hs : r.action = "Sell"
        · simp [bsCount, List.filter_cons, hb, hs]
        · simp [bsCount, List.filter_cons, hb, hs]
    rw [hbs]
    omega

lemma qZ_const (q : List PosEntry) (k : PosKind) (h : ∀ y ∈ q, y.kind = k) :
    qZ q = kindZ k * (q.length : ℤ) := by
  induction q with
  | nil => simp [qZ]
  | cons e rest ih =>
    have he := h e (List.mem_cons_self _ _)
    have hr : ∀ y ∈ rest, y.kind = k := fun y hy => h y (List.mem_cons_of_mem _ hy)
    simp only [qZ, List.map_cons, List.sum_cons] at ih ⊢
    rw [he, ih hr]
    simp only [List.length_cons]
    push_cast
    ring

lemma sameKind_len_abs (q : List PosEntry) (h : sameKind q) :
    (q.length : ℤ) = |qZ q| := by
  cases q with
  | nil => simp [qZ]
  | cons e qrest =>
    have hall : ∀ y ∈ e :: qrest, y.kind = e.kind :=
      fun y hy => h y hy e (List.mem_cons_self _ _)
    rw [qZ_const (e :: qrest) e.kind hall, abs_mul]
    cases e.kind <;> simp [kindZ] <;>
      rw [abs_of_nonneg (by positivity)]

/-- C1 amended: the per-symbol queue is empty when the FIFO loop finishes
IF AND ONLY IF the symbol has as many Buy rows as Sell rows; matching never
inspects quantities, so equality of aggregate Buy/Sell QUANTITY (the balance
check) does not suffice when lot sizes differ between paired rows.  In
addition each Buy/Sell row is consumed into exactly one trade or one
residual open leg: 2·(trades emitted) + (final queue length) = (number of
Buy/Sell rows).  In particular, for a balanced symbol with uniform lot
sizes, Buy and Sell row counts coincide and the queue drains completely. -/
theorem balanced_symbol_queue_empty (sym : String) (rows : List ExecRow) :
    ((fifoLoopFull sym rows []).2 = [] ↔ buyCount rows = sellCount rows) ∧
    2 * (fifoLoopFull sym rows []).1.length +
        (fifoLoopFull sym rows []).2.length = bsCount rows := by
  have hz := fifoLoopFull_qZ sym rows []
  have hk := fifoLoopFull_sameKind sym rows [] sameKind_nil
  have habs := sameKind_len_abs _ hk
  have hlen := fifoLoopFull_len sym rows []
  have hq0 : qZ [] = 0 := by simp [qZ]
  rw [hq0] at hz
  simp only [List.length_nil, Nat.cast_zero, add_zero, zero_add] at hz hlen
  constructor
  · constructor
    · intro h
      have hzf : qZ (fifoLoopFull sym rows []).2 = 0 := by
        rw [h]
        simp [qZ]
      rw [hzf] at hz
      omega
    · intro h
      have hz0 : qZ (fifoLoopFull sym rows []).2 = 0 := by omega
      rw [hz0] at habs
      simp only [abs_zero] at habs
      have : (fifoLoopFull sym rows []).2.length = 0 := by exact_mod_cast habs
      exact List.length_eq_zero.mp this
  · omega

/-- The Buy row of the C1 counterexample: one lot of quantity 2. -/
def c1Buy : ExecRow :=
  { symbol := "CCC", action := "Buy", qty := 2, price := 10,
    trade_time := some 60, order_time := none, brokerage := 0, gst := 0,
    stt_ctt := 0, misc_charges := 0, total_charges := 0, exchange := "NSE" }

/-- First Sell of the C1 counterexample: quantity 1. -/
def c1SellA : ExecRow :=
  { symbol := "CCC", action := "Sell", qty := 1, price := 11,
    trade_time := some 120, order_time := none, brokerage := 0, gst := 0,
    stt_ctt := 0, misc_charges := 0, total_charges := 0, exchange := "NSE" }

/-- Second Sell of the C1 counterexample: quantity 1. -/
def c1SellB : ExecRow :=
  { symbol := "CCC", action := "Sell", qty := 1, price := 12,
    trade_time := some 180, order_time := none, brokerage := 0, gst := 0,
    stt_ctt := 0, misc_charges := 0, total_charges := 0, exchange := "NSE" }

/-- C1 counterexample: a balanced symbol (total Buy quantity 2 = total Sell
quantity 1+1) whose rows are already in timestamp order, yet the FIFO loop
ends with a NON-empty queue (the second Sell is left as an open short leg)
and only one of the three rows' worth of trades (one trade, consuming two
rows). -/
theorem balanced_qty_queue_not_empty :
    buyQty [c1Buy, c1SellA, c1SellB] = sellQty [c1Buy, c1SellA, c1SellB] ∧
    (fifoLoopFull "CCC" [c1Buy, c1SellA, c1SellB] []).2 ≠ [] ∧
    (fifoLoopFull "CCC" [c1Buy, c1SellA, c1SellB] []).1.length = 1 := by
  refine ⟨?_, ?_, rfl⟩
  · simp [buyQty, sellQty, c1Buy, c1SellA, c1SellB]
    norm_num
  · have hq : (fifoLoopFull "CCC" [c1Buy, c1SellA, c1SellB] []).2 =
        [mkEntry PosKind.short c1SellB] := rfl
    rw [hq]
    simp

lemma fifoStep_emit_symbol (sym : String) (r : ExecRow) (q : List PosEntry)
    (t0 : Trade) (h : (fifoStep sym r q).1 = some t0) : t0.symbol = sym := by
  by_cases hb : r.action = "Buy"
  · cases q with
    | nil => simp [fifoStep, hb] at h
    | cons e qrest =>
      by_cases hk : e.kind = PosKind.short
      · simp [fifoStep, hb, hk] at h
        rw [← h]
        rfl
      · simp [fifoStep, hb, hk] at h
  · by_cases hs : r.action = "Sell"
    · cases q with
      | nil => simp [fifoStep, hb, hs] at h
      | cons e qrest =>
        by_cases hk : e.kind = PosKind.long
        · simp [fifoStep, hb, hs, hk] at h
          rw [← h]
          rfl
        · simp [fifoStep, hb, hs, hk] at h
    · simp [fifoStep, hb, hs] at h

lemma fifoLoopFull_symbol (sym : String) (rows : List ExecRow) :
    ∀ q, ∀ t ∈ (fifoLoopFull sym rows q).1, t.symbol = sym := by
  induction rows with
  | nil => intro q t ht; cases ht
  | cons r rest ih =>
    intro q t ht
    cases hemit : (fifoStep sym r q).1 with
    | none =>
      have hfst : (fifoLoopFull sym (r :: rest) q).1 =
          (fifoLoopFull sym rest (fifoStep sym r q).2).1 := by
        simp [fifoLoopFull, hemit]
      rw [hfst] at ht
      exact ih _ t ht
    | some t0 =>
      have hfst : (fifoLoopFull sym (r :: rest) q).1 =
          t0 :: (fifoLoopFull sym rest (fifoStep sym r q).2).1 := by
        simp [fifoLoopFull, hemit]
      rw [hfst] at ht
      rcases List.mem_cons.1 ht with h | h
      · rw [h]
        exact fifoStep_emit_symbol sym r q t0 hemit
      · exact ih _ t h

lemma filter_flatten_blocks (f : String → List Trade) (s2 : String)
    (hf : ∀ s, ∀ t ∈ f s, t.symbol = s) :
    ∀ syms : List String, syms.Nodup → s2 ∈ syms →
      ((syms.map f).flatten.filter (fun t => t.symbol = s2)) = f s2 := by
  intro syms
  induction syms with
  | nil => intro _ hs2; cases hs2
  | cons a rest ih =>
    intro hnd hs2
    have hanotin := (List.nodup_cons.1 hnd).1
    have hrestnd := (List.nodup_cons.1 hnd).2
    simp only [List.map_cons, List.flatten_cons, List.filter_append]
    rcases List.mem_cons.1 hs2 with rfl | hmem
    · have h1 : (f s2).filter (fun t => t.symbol = s2) = f s2 :=
        List.filter_eq_self.mpr (fun t ht => by simp [hf s2 t ht])
      have h2 : ((rest.map f).flatten.filter (fun t => t.symbol = s2)) = [] := by
        refine List.filter_eq_nil_iff.mpr ?_
        intro t ht
        rcases List.mem_flatten.1 ht with ⟨l, hl, htl⟩
        rcases List.mem_map.1 hl with ⟨s, hsrest, rfl⟩
        have hts := hf s t htl
        simp only [decide_eq_true_eq, hts]
        intro heq
        exact hanotin (heq ▸ hsrest)
      rw [h1, h2, List.append_nil]
    · have h1 : (f a).filter (fun t => t.symbol = s2) = [] := by
        refine List.filter_eq_nil_iff.mpr ?_
        intro t ht
        have hta := hf a t ht
        simp only [decide_eq_true_eq, hta]
        intro heq
        exact hanotin (heq ▸ hmem)
      rw [h1, List.nil_append]
      exact ih hrestnd hmem

lemma filter_filterMap_blocks (g : String → Option AttnItem) (s2 : String)
    (hg : ∀ s a, g s = some a → a.symbol = s) :
    ∀ syms : List String, syms.Nodup → s2 ∈ syms →
      ((syms.filterMap g).filter (fun a => a.symbol = s2)) = (g s2).toList := by
  intro syms
  induction syms with
  | nil => intro _ hs2; cases hs2
  | cons a rest ih =>
    intro hnd hs2
    have hanotin := (List.nodup_cons.1 hnd).1
    have hrestnd := (List.nodup_cons.1 hnd).2
    have htail : s2 ∉ rest →
        ((rest.filterMap g).filter (fun a => a.symbol = s2)) = [] := by
      intro hnot
      refine List.filter_eq_nil_iff.mpr ?_
      intro x hx
      rcases List.mem_filterMap.1 hx with ⟨s, hsrest, hgs⟩
      have hxs := hg s x hgs
      simp only [decide_eq_true_eq, hxs]
      intro heq
      exact hnot (heq ▸ hsrest)
    rcases List.mem_cons.1 hs2 with rfl | hmem
    · cases hga : g s2 with
      | none =>
        simp only [List.filterMap_cons, hga]
        rw [htail hanotin]
        rfl
      | some item =>
        have hia := hg s2 item hga
        simp only [List.filterMap_cons, hga, List.filter_cons]
        rw [htail hanotin]
        simp [hia, hga]
    · cases hga : g a with
      | none =>
        simp only [List.filterMap_cons, hga]
        exact ih hrestnd hmem
      | some item =>
        have hia := hg a item hga
        simp only [List.filterMap_cons, hga, List.filter_cons]
        have : ¬ (item.symbol = s2) := by
          rw [hia]
          intro heq
          exact hanotin (heq ▸ hmem)
        simp only [this, decide_eq_true_eq, if_false, decide_eq_false_iff_not.mpr this]
        exact ih hrestnd hmem

/-- C3: a symbol whose total Buy quantity differs from its total Sell
quantity contributes zero Trades and exactly one AttentionItem, whose
`difference` is buy − sell and whose `status` is LONG when the difference is
positive and SHORT otherwise; every other (balanced) symbol of the same
upload is still processed, its trades being exactly the FIFO matching of its
own group. -/
theorem imbalanced_symbol_diverted (rows : List ExecRow) (s : String)
    (hmem : s ∈ rows.map (fun r => r.symbol))
    (himb : buyQty (symGroup rows s) ≠ sellQty (symGroup rows s)) :
    ((reconstruct_trades_with_validation rows).1.filter
        (fun t => t.symbol = s)) = [] ∧
    ((reconstruct_trades_with_validation rows).2.filter
        (fun a => a.symbol = s)) =
      [mkAttnItem s (buyQty (symGroup rows s)) (sellQty (symGroup rows s))] ∧
    (mkAttnItem s (buyQty (symGroup rows s)) (sellQty (symGroup rows s))).difference
      = buyQty (symGroup rows s) - sellQty (symGroup rows s) ∧
    (mkAttnItem s (buyQty (symGroup rows s)) (sellQty (symGroup rows s))).status
      = (if buyQty (symGroup rows s) - sellQty (symGroup rows s) > 0
         then "LONG" else "SHORT") ∧
    (∀ s2, s2 ∈ rows.map (fun r => r.symbol) →
      buyQty (symGroup rows s2) = sellQty (symGroup rows s2) →
      ((reconstruct_trades_with_validation rows).1.filter
          (fun t => t.symbol = s2)) = (fifoLoopFull s2 (symGroup rows s2) []).1) := by
  have hperm : List.Perm ((sortRows rows).map (fun r => r.symbol))
      (rows.map (fun r => r.symbol)) :=
    (List.perm_insertionSort rowTimeLe rows).map (fun r => r.symbol)
  have hmemsyms : ∀ s0, s0 ∈ rows.map (fun r => r.symbol) →
      s0 ∈ ((sortRows rows).map (fun r => r.symbol)).dedup := by
    intro s0 h0
    rw [List.mem_dedup]
    exact hperm.mem_iff.mpr h0
  have hnd : (((sortRows rows).map (fun r => r.symbol)).dedup).Nodup :=
    List.nodup_dedup _
  have hf : ∀ s0, ∀ t ∈ (if buyQty (symGroup rows s0) = sellQty (symGroup rows s0)
      then (fifoLoopFull s0 (symGroup rows s0) []).1 else []), t.symbol = s0 := by
    intro s0 t ht
    by_cases hb : buyQty (symGroup rows s0) = sellQty (symGroup rows s0)
    · rw [if_pos hb] at ht
      exact fifoLoopFull_symbol s0 (symGroup rows s0) [] t ht
    · rw [if_neg hb] at ht
      cases ht
  have hg : ∀ s0 a, (if buyQty (symGroup rows s0) = sellQty (symGroup rows s0)
      then (none : Option AttnItem)
      else some (mkAttnItem s0 (buyQty (symGroup rows s0))
        (sellQty (symGroup rows s0)))) = some a → a.symbol = s0 := by
    intro s0 a ha
    by_cases hb : buyQty (symGroup rows s0) = sellQty (symGroup rows s0)
    · rw [if_pos hb] at ha
      cases ha
    · rw [if_neg hb] at ha
      have h2 := Option.some.inj ha
      rw [← h2]
      rfl
  have hdef1 : (reconstruct_trades_with_validation rows).1 =
      ((((sortRows rows).map (fun r => r.symbol)).dedup).map
        (fun s0 => if buyQty (symGroup rows s0) = sellQty (symGroup rows s0)
          then (fifoLoopFull s0 (symGroup rows s0) []).1 else [])).flatten := rfl
  have hdef2 : (reconstruct_trades_with_validation rows).2 =
      (((sortRows rows).map (fun r => r.symbol)).dedup).filterMap
        (fun s0 => if buyQty (symGroup rows s0) = sellQty (symGroup rows s0)
          then none
          else some (mkAttnItem s0 (buyQty (symGroup rows s0))
            (sellQty (symGroup rows s0)))) := rfl
  have htr := filter_flatten_blocks
    (fun s0 => if buyQty (symGroup rows s0) = sellQty (symGroup rows s0)
      then (fifoLoopFull s0 (symGroup rows s0) []).1 else []) s hf
    (((sortRows rows).map (fun r => r.symbol)).dedup) hnd (hmemsyms s hmem)
  have hat := filter_filterMap_blocks
    (fun s0 => if buyQty (symGroup rows s0) = sellQty (symGroup rows s0)
      then none
      else some (mkAttnItem s0 (buyQty (symGroup rows s0))
        (sellQty (symGroup rows s0)))) s hg
    (((sortRows rows).map (fun r => r.symbol)).dedup) hnd (hmemsyms s hmem)
  refine ⟨?_, ?_, rfl, rfl, ?_⟩
  · rw [hdef1, htr]
    simp only [if_neg himb]
  · rw [hdef2, hat]
    simp only [if_neg himb, Option.toList_some]
  · intro s2 hs2 hbal
    have htr2 := filter_flatten_blocks
      (fun s0 => if buyQty (symGroup rows s0) = sellQty (symGroup rows s0)
        then (fifoLoopFull s0 (symGroup rows s0) []).1 else []) s2 hf
      (((sortRows rows).map (fun r => r.symbol)).dedup) hnd (hmemsyms s2 hs2)
    rw [hdef1, htr2]
    simp only [if_pos hbal]

/-- Balanced-symbol Buy of the C3 witness ledger. -/
def c3aBuy : ExecRow :=
  { symbol := "AAA", action := "Buy", qty := 10, price := 50,
    trade_time := some 60, order_time := none, brokerage := 0, gst := 0,
    stt_ctt := 0, misc_charges := 0, total_charges := 0, exchange := "NSE" }

/-- Balanced-symbol Sell of the C3 witness ledger. -/
def c3aSell : ExecRow :=
  { symbol := "AAA", action := "Sell", qty := 10, price := 51,
    trade_time := some 120, order_time := none, brokerage := 0, gst := 0,
    stt_ctt := 0, misc_charges := 0, total_charges := 0, exchange := "NSE" }

/-- Imbalanced-symbol Buy (quantity 100) of the C3 witness ledger. -/
def c3cBuy : ExecRow :=
  { symbol := "CCC", action := "Buy", qty := 100, price := 20,
    trade_time := some 180, order_time := none, brokerage := 0, gst := 0,
    stt_ctt := 0, misc_charges := 0, total_charges := 0, exchange := "NSE" }

/-- Imbalanced-symbol Sell (quantity 40) of the C3 witness ledger. -/
def c3cSell : ExecRow :=
  { symbol := "CCC", action := "Sell", qty := 40, price := 21,
    trade_time := some 240, order_time := none, brokerage := 0, gst := 0,
    stt_ctt := 0, misc_charges := 0, total_charges := 0, exchange := "NSE" }

/-- The C3 witness ledger: one balanced symbol AAA, one imbalanced CCC. -/
def c3Rows : List ExecRow := [c3aBuy, c3aSell, c3cBuy, c3cSell]

/-- C3 witness: on the concrete ledger, symbol CCC (Buy 100 vs Sell 40) gets
no trades and exactly its one attention record, while AAA is still
processed. -/
theorem imbalanced_symbol_diverted_witness :
    ((reconstruct_trades_with_validation c3Rows).1.filter
        (fun t => t.symbol = "CCC")) = [] ∧
    ((reconstruct_trades_with_validation c3Rows).2.filter
        (fun a => a.symbol = "CCC")) =
      [mkAttnItem "CCC" (buyQty (symGroup c3Rows "CCC"))
        (sellQty (symGroup c3Rows "CCC"))] ∧
    ((reconstruct_trades_with_validation c3Rows).1.filter
        (fun t => t.symbol = "AAA")) =
      (fifoLoopFull "AAA" (symGroup c3Rows "AAA") []).1 := by
  have hgrpC : symGroup c3Rows "CCC" = [c3cBuy, c3cSell] := rfl
  have hmemC : "CCC" ∈ c3Rows.map (fun r => r.symbol) := by
    simp [c3Rows, c3aBuy, c3aSell, c3cBuy, c3cSell]
  have hmemA : "AAA" ∈ c3Rows.map (fun r => r.symbol) := by
    simp [c3Rows, c3aBuy, c3aSell, c3cBuy, c3cSell]
  have himb : buyQty (symGroup c3Rows "CCC") ≠ sellQty (symGroup c3Rows "CCC") := by
    rw [hgrpC]
    simp [buyQty, sellQty, c3cBuy, c3cSell]
    try norm_num
  have hbalA : buyQty (symGroup c3Rows "AAA") = sellQty (symGroup c3Rows "AAA") := by
    have hgrpA : symGroup c3Rows "AAA" = [c3aBuy, c3aSell] := rfl
    rw [hgrpA]
    simp [buyQty, sellQty, c3aBuy, c3aSell]
  have hmain := imbalanced_symbol_diverted c3Rows "CCC" hmemC himb
  exact ⟨hmain.1, hmain.2.1, hmain.2.2.2.2 "AAA" hmemA hbalA⟩

/-- Sort key of an open leg's entry timestamp (`NaT` as top, like rows). -/
def entryKey (e : PosEntry) : WithTop ℤ :=
  match e.time with
  | some t => (t : WithTop ℤ)
  | none => ⊤

lemma holding_nonneg_of_key (e : PosEntry) (r : ExecRow) (sym dir : String)
    (h : entryKey e ≤ timeKey r) :
    0 ≤ (create_trade_record e r sym dir).holding_period_minutes := by
  cases he : e.time with
  | none =>
    cases hr : r.trade_time with
    | none => simp [create_trade_record, he, hr]
    | some t2 => simp [create_trade_record, he, hr]
  | some t1 =>
    cases hr : r.trade_time with
    | none => simp [create_trade_record, he, hr]
    | some t2 =>
      have ht : t1 ≤ t2 := by
        simp only [entryKey, timeKey, he, hr] at h
        exact_mod_cast h
      simp only [create_trade_record, he, hr]
      exact Int.tdiv_nonneg (by omega) (by norm_num)

lemma fifoStep_queue_mem (sym : String) (r : ExecRow) (q : List PosEntry) :
    ∀ e ∈ (fifoStep sym r q).2,
      e ∈ q ∨ e = mkEntry PosKind.long r ∨ e = mkEntry PosKind.short r := by
  intro e he
  by_cases hb : r.action = "Buy"
  · cases q with
    | nil =>
      simp [fifoStep, hb] at he
      right; left; exact he
    | cons e0 qrest =>
      by_cases hk : e0.kind = PosKind.short
      · simp [fifoStep, hb, hk] at he
        left; exact List.mem_cons_of_mem _ he
      · simp [fifoStep, hb, hk] at he
        rcases he with rfl | he | rfl
        · left; exact List.mem_cons_self _ _
        · left; exact List.mem_cons_of_mem _ he
        · right; left; rfl
  · by_cases hs : r.action = "Sell"
    · cases q with
      | nil =>
        simp [fifoStep, hb, hs] at he
        right; right; exact he
      | cons e0 qrest =>
        by_cases hk : e0.kind = PosKind.long
        · simp [fifoStep, hb, hs, hk] at he
          left; exact List.mem_cons_of_mem _ he
        · simp [fifoStep, hb, hs, hk] at he
          rcases he with rfl | he | rfl
          · left; exact List.mem_cons_self _ _
          · left; exact List.mem_cons_of_mem _ he
          · right; right; rfl
    · simp [fifoStep, hb, hs] at he
      left; exact he

lemma fifoStep_emit_shape (sym : String) (r : ExecRow) (q : List PosEntry)
    (t0 : Trade) (h : (fifoStep sym r q).1 = some t0) :
    ∃ e qrest, q = e :: qrest ∧
      (t0 = create_trade_record e r sym "SHORT" ∨
       t0 = create_trade_record e r sym "LONG") := by
  by_cases hb : r.action = "Buy"
  · cases q with
    | nil => simp [fifoStep, hb] at h
    | cons e0 qrest =>
      by_cases hk : e0.kind = PosKind.short
      · simp [fifoStep, hb, hk] at h
        exact ⟨e0, qrest, rfl, Or.inl h.symm⟩
      · simp [fifoStep, hb, hk] at h
  · by_cases hs : r.action = "Sell"
    · cases q with
      | nil => simp [fifoStep, hb, hs] at h
      | cons e0 qrest =>
        by_cases hk : e0.kind = PosKind.long
        · simp [fifoStep, hb, hs, hk] at h
          exact ⟨e0, qrest, rfl, Or.inr h.symm⟩
        · simp [fifoStep, hb, hs, hk] at h
    · simp [fifoStep, hb, hs] at h

lemma fifoLoopFull_holding_nonneg (sym : String) (rows : List ExecRow) :
    ∀ q, List.Sorted rowTimeLe rows →
      (∀ e ∈ q, ∀ r2 ∈ rows, entryKey e ≤ timeKey r2) →
      ∀ t ∈ (fifoLoopFull sym rows q).1, 0 ≤ t.holding_period_minutes := by
  induction rows with
  | nil => intro q _ _ t ht; cases ht
  | cons r rest ih =>
    intro q hs hq t ht
    have hrest : List.Sorted rowTimeLe rest := hs.of_cons
    have hrkey : ∀ r2 ∈ rest, rowTimeLe r r2 := List.rel_of_sorted_cons hs
    have hq2 : ∀ e ∈ (fifoStep sym r q).2, ∀ r2 ∈ rest, entryKey e ≤ timeKey r2 := by
      intro e he r2 hr2
      rcases fifoStep_queue_mem sym r q e he with hin | rfl | rfl
      · exact hq e hin r2 (List.mem_cons_of_mem _ hr2)
      · exact hrkey r2 hr2
      · exact hrkey r2 hr2
    cases hemit : (fifoStep sym r q).1 with
    | none =>
      have hfst : (fifoLoopFull sym (r :: rest) q).1 =
          (fifoLoopFull sym rest (fifoStep sym r q).2).1 := by
        simp [fifoLoopFull, hemit]
      rw [hfst] at ht
      exact ih _ hrest hq2 t ht
    | some t0 =>
      have hfst : (fifoLoopFull sym (r :: rest) q).1 =
          t0 :: (fifoLoopFull sym rest (fifoStep sym r q).2).1 := by
        simp [fifoLoopFull, hemit]
      rw [hfst] at ht
      rcases List.mem_cons.1 ht with rfl | hmem
      · rcases fifoStep_emit_shape sym r q t hemit with ⟨e, qrest, rfl, hcase⟩
        have hkey : entryKey e ≤ timeKey r :=
          hq e (List.mem_cons_self _ _) r (List.mem_cons_self _ _)
        rcases hcase with rfl | rfl
        · exact holding_nonneg_of_key e r sym "SHORT" hkey
        · exact holding_nonneg_of_key e r sym "LONG" hkey
      · exact ih _ hrest hq2 t hmem

/-- C9: every trade emitted by the FIFO loop on timestamp-sorted rows (any
sorted permutation — pandas fixes only sortedness, not tie order) has a
non-negative holding period, and so does every trade of the full
reconstruction entry point, which sorts before matching; the scorer's
negative-holding branch (`holding_mins < 0`) is therefore unreachable for
reconstructed trades.  Missing timestamps degrade the holding period to 0,
never to a negative value. -/
theorem reconstructed_holding_nonneg :
    (∀ (rows : List ExecRow) (sym : String), List.Sorted rowTimeLe rows →
      ∀ t ∈ (fifoLoopFull sym rows []).1,
        0 ≤ t.holding_period_minutes ∧ ¬ (t.holding_period_minutes < 0)) ∧
    (∀ rows : List ExecRow, ∀ t ∈ (reconstruct_trades_with_validation rows).1,
      0 ≤ t.holding_period_minutes) := by
  have hmain : ∀ (rows : List ExecRow) (sym : String),
      List.Sorted rowTimeLe rows →
      ∀ t ∈ (fifoLoopFull sym rows []).1, 0 ≤ t.holding_period_minutes := by
    intro rows sym hs t ht
    refine fifoLoopFull_holding_nonneg sym rows [] hs ?_ t ht
    intro e he
    cases he
  constructor
  · intro rows sym hs t ht
    have h := hmain rows sym hs t ht
    exact ⟨h, by omega⟩
  · intro rows t ht
    have hdef1 : (reconstruct_trades_with_validation rows).1 =
        ((((sortRows rows).map (fun r => r.symbol)).dedup).map
          (fun s0 => if buyQty (symGroup rows s0) = sellQty (symGroup rows s0)
            then (fifoLoopFull s0 (symGroup rows s0) []).1 else [])).flatten := rfl
    rw [hdef1] at ht
    rcases List.mem_flatten.1 ht with ⟨l, hl, htl⟩
    rcases List.mem_map.1 hl with ⟨s0, hs0, rfl⟩
    by_cases hb : buyQty (symGroup rows s0) = sellQty (symGroup rows s0)
    · simp only [if_pos hb] at htl
      have hsorted : List.Sorted rowTimeLe (symGroup rows s0) :=
        List.Sorted.filter _ (List.sorted_insertionSort rowTimeLe rows)
      exact hmain _ s0 hsorted t htl
    · simp only [if_neg hb] at htl
      cases htl

/-- Entry row of the C9 witness (bought at t = 60 s). -/
def c9Buy : ExecRow :=
  { symbol := "AAA", action := "Buy", qty := 5, price := 10,
    trade_time := some 60, order_time := none, brokerage := 0, gst := 0,
    stt_ctt := 0, misc_charges := 0, total_charges := 0, exchange := "NSE" }

/-- Exit row of the C9 witness (sold at t = 3660 s, one hour later). -/
def c9Sell : ExecRow :=
  { symbol := "AAA", action := "Sell", qty := 5, price := 11,
    trade_time := some 3660, order_time := none, brokerage := 0, gst := 0,
    stt_ctt := 0, misc_charges := 0, total_charges := 0, exchange := "NSE" }

/-- C9 witness: the sorted two-row ledger Buy(60 s), Sell(3660 s) produces a
trade whose holding period (60 minutes) is non-negative. -/
theorem reconstructed_holding_nonneg_witness :
    0 ≤ (create_trade_record (mkEntry PosKind.long c9Buy) c9Sell
          "AAA" "LONG").holding_period_minutes := by
  have hs : List.Sorted rowTimeLe [c9Buy, c9Sell] := by
    refine List.sorted_cons.mpr ⟨?_, List.sorted_singleton _⟩
    intro b hb
    rw [List.mem_singleton.1 hb]
    show timeKey c9Buy ≤ timeKey c9Sell
    simp only [timeKey, c9Buy, c9Sell]
    exact_mod_cast (by norm_num : (60 : ℤ) ≤ 3660)
  have hlist : (fifoLoopFull "AAA" [c9Buy, c9Sell] []).1 =
      [create_trade_record (mkEntry PosKind.long c9Buy) c9Sell "AAA" "LONG"] := rfl
  have hmem : (create_trade_record (mkEntry PosKind.long c9Buy) c9Sell
      "AAA" "LONG") ∈ (fifoLoopFull "AAA" [c9Buy, c9Sell] []).1 := by
    rw [hlist]
    exact List.mem_singleton.mpr rfl
  exact (reconstructed_holding_nonneg.1 [c9Buy, c9Sell] "AAA" hs _ hmem).1

/-- A well-formed Zerodha tradebook upload: the sample and the full read
both succeed with the Zerodha header columns. -/
def zerodhaFile : UploadFile :=
  { sample := Except.ok
      ["symbol", "order_execution_time", "trade_type", "quantity", "price"]
    full := Except.ok
      { columns := ["symbol", "order_execution_time", "trade_type",
          "quantity", "price"]
        convert := Except.ok [] } }

/-- C8 (the claim fails on the code): on a valid Zerodha-format file the
entry point returns a 2-tuple `(None, message)`, not a
`(trades, attentionItems, error)` triple — only the Kotak path produces the
triple, while the Zerodha/ICICI/unrecognized/exception paths return pairs
(which the caller in app.py unpacks as three values). -/
theorem parse_broker_file_returns_pair :
    parse_broker_file zerodhaFile =
      BrokerResult.pair none
        "Zerodha FIFO parser coming soon. Use Kotak format for now." ∧
    ∀ (t : Option (List Trade)) (a : Option (List AttnItem))
      (e : Option String),
      parse_broker_file zerodhaFile ≠ BrokerResult.triple t a e := by
  have h : parse_broker_file zerodhaFile =
      BrokerResult.pair none
        "Zerodha FIFO parser coming soon. Use Kotak format for now." := rfl
  refine ⟨h, ?_⟩
  intro t a e hc
  rw [h] at hc
  exact BrokerResult.noConfusion hc

/-- C10: every fault that can be raised while detecting the format or
parsing (a failing sample read, a failing full read on the Kotak or Zerodha
path, a failing cell conversion after a successful Kotak read) is caught by
a `try/except` and converted to an error-message result; `parse_broker_file`
is total and never propagates an exception. -/
theorem parser_catches_all_faults :
    (∀ (f : UploadFile) (e : String), f.sample = Except.error e →
      parse_broker_file f =
        BrokerResult.pair none ("Error detecting broker format: " ++ e)) ∧
    (∀ (f : UploadFile) (cols : List String) (e : String),
      f.sample = Except.ok cols →
      isKotakHeader (cols.map (fun c => pyStrip (pyLower c))) = true →
      f.full = Except.error e →
      parse_broker_file f =
        BrokerResult.triple none none
          (some ("Error parsing Kotak file: " ++ e))) ∧
    (∀ (f : UploadFile) (cols : List String) (csv : CsvData) (e : String),
      f.sample = Except.ok cols →
      isKotakHeader (cols.map (fun c => pyStrip (pyLower c))) = true →
      f.full = Except.ok csv →
      (["Trade Date", "Transaction Type", "Quantity", "Market Rate"].all
        (fun c => csv.columns.contains c)) = true →
      csv.convert = Except.error e →
      parse_broker_file f =
        BrokerResult.triple none none
          (some ("Error parsing Kotak file: " ++ e))) ∧
    (∀ (f : UploadFile) (cols : List String) (e : String),
      f.sample = Except.ok cols →
      isKotakHeader (cols.map (fun c => pyStrip (pyLower c))) = false →
      isZerodhaHeader (cols.map (fun c => pyStrip (pyLower c))) = true →
      f.full = Except.error e →
      parse_broker_file f =
        BrokerResult.pair none ("Error parsing Zerodha file: " ++ e)) := by
  refine ⟨?_, ?_, ?_, ?_⟩
  · intro f e hsample
    have hb : brokerBody f = Except.error e := by
      simp only [brokerBody, hsample]
    simp only [parse_broker_file, hb]
  · intro f cols e hsample hdet hfull
    have hk : kotakBody f = Except.error e := by
      simp only [kotakBody, hfull]
    have hpk : parse_kotak f =
        BrokerResult.triple none none
          (some ("Error parsing Kotak file: " ++ e)) := by
      simp only [parse_kotak, hk]
    have hb : brokerBody f = Except.ok (parse_kotak f) := by
      simp only [brokerBody, hsample]
      rw [if_pos hdet]
    simp only [parse_broker_file, hb, hpk]
  · intro f cols csv e hsample hdet hfull hcols hconv
    have hk : kotakBody f = Except.error e := by
      simp only [kotakBody, hfull]
      rw [if_neg (fun hn => hn hcols)]
      simp only [hconv]
    have hpk : parse_kotak f =
        BrokerResult.triple none none
          (some ("Error parsing Kotak file: " ++ e)) := by
      simp only [parse_kotak, hk]
    have hb : brokerBody f = Except.ok (parse_kotak f) := by
      simp only [brokerBody, hsample]
      rw [if_pos hdet]
    simp only [parse_broker_file, hb, hpk]
  · intro f cols e hsample hkot hzer hfull
    have hz : zerodhaBody f = Except.error e := by
      simp only [zerodhaBody, hfull]
    have hpz : parse_zerodha f =
        BrokerResult.pair none ("Error parsing Zerodha file: " ++ e) := by
      simp only [parse_zerodha, hz]
    have hb : brokerBody f = Except.ok (parse_zerodha f) := by
      simp [brokerBody, hsample, hkot, hzer]
    simp only [parse_broker_file, hb, hpz]

/-- An upload whose very first read raises. -/
def faultyFile : UploadFile :=
  { sample := Except.error "boom", full := Except.error "boom" }

/-- C10 witness: a file whose sample read raises is answered with the
format-detection error pair, not an exception. -/
theorem parser_catches_all_faults_witness :
    parse_broker_file faultyFile =
      BrokerResult.pair none ("Error detecting broker format: " ++ "boom") :=
  parser_catches_all_faults.1 faultyFile "boom" rfl
